import Mathlib

/-!
Verification of the BIO_V2 edge-attendance recorder.

Shallow embedding of the device-side local store (`device/database.py`),
the LAN sync cycle (`device/uploader.py`) and the LAN receiver endpoint
(`server/api.py`).

Modelling conventions
* SQLite tables become Lean lists of structure values kept in rowid
  (= ascending `id`) insertion order; `AUTOINCREMENT` is modelled by an
  explicit `next_id` counter.
* Civil timestamps become `Nat` seconds: an absolute punch instant `t`
  has calendar date `t / 86400` and time-of-day `t % 86400`.  ISO-8601
  strings compare lexicographically exactly as the underlying instants
  compare, so `ORDER BY punch_time` is ordering by this `Nat`.
* Python `int(diff.total_seconds() / 60)` on the (always non-negative)
  sub-day differences that occur in the code is truncating division,
  i.e. `Nat` division by 60.
* The `confidence REAL` column is only ever stored and copied, never
  computed with, so it is carried as an opaque `Int`.
-/

namespace BioV2

/-! ## Data model (`device/database.py`, schema in `_init_db`) -/

/-- A row of the `shifts` table.  Times-of-day are seconds since
midnight; the grace/offset columns are minutes, as in the schema.
(The `half_day_min_hours REAL` column is never read by any code path
modelled here and is omitted.) -/
structure Shift where
  id : Nat
  shift_name : String
  start_time : Nat
  end_time : Nat
  late_grace_mins : Nat
  overtime_start_mins : Nat
deriving DecidableEq

/-- The seeded `'General Shift'` row: 09:00:00-18:00:00, grace 15,
`overtime_start_mins` takes the schema default 30. -/
def defaultShift : Shift :=
  { id := 1
    shift_name := "General Shift"
    start_time := 9 * 3600
    end_time := 18 * 3600
    late_grace_mins := 15
    overtime_start_mins := 30 }

/-- A row of the `attendance_log` table.  `punch_time` is the absolute
instant in seconds, `punch_date = punch_time / 86400`,
`punch_clock = punch_time % 86400`. -/
structure PunchRecord where
  id : Nat
  user_id : String
  name : String
  device_id : String
  punch_time : Nat
  punch_date : Nat
  punch_clock : Nat
  punch_type : String
  shift_id : Option Nat
  attendance_status : String
  late_minutes : Nat
  early_departure_minutes : Nat
  overtime_minutes : Nat
  confidence : Int
  lan_synced : Bool
  mqtt_synced : Bool
deriving DecidableEq

/-- The device-side store: `shifts` and `attendance_log` tables, both in
rowid order, plus the `attendance_log` autoincrement counter. -/
structure DB where
  shifts : List Shift
  records : List PunchRecord
  next_id : Nat
deriving DecidableEq

/-! ## Status engine (`LocalDatabase.calculate_attendance_status`) -/

/-- `LocalDatabase.calculate_attendance_status` (database.py:176-210).
`punch_time` here is the time-of-day of the punch in seconds (the code
combines the shift times-of-day with the punch's own date, so all
comparisons happen within one day). -/
def calculate_attendance_status (punch_time : Nat) (punch_type : String)
    (shift : Option Shift) : String × Nat × Nat × Nat :=
  match shift with
  | none => ("Present", 0, 0, 0)
  | some s =>
    if punch_type = "IN" then
      let late_threshold := s.start_time + s.late_grace_mins * 60
      if punch_time > late_threshold then
        let late_mins := (punch_time - s.start_time) / 60
        ((if late_mins > 120 then "Half Day" else "Late"), late_mins, 0, 0)
      else ("Present", 0, 0, 0)
    else if punch_type = "OUT" then
      if punch_time < s.end_time then
        let early_mins := (s.end_time - punch_time) / 60
        ((if early_mins > 60 then "Half Day (Early)" else "Early Departure"),
          0, early_mins, 0)
      else if punch_time > s.end_time + s.overtime_start_mins * 60 then
        let ot_mins := (punch_time - s.end_time) / 60
        ("Overtime", 0, 0, ot_mins)
      else ("Present", 0, 0, 0)
    else ("Present", 0, 0, 0)

/-- The spec §4.1 reference definition of the status engine, written
from the spec's words (not from the code): "If no shift: Present, all
counts 0.  For IN: threshold = start + grace; punch ≤ threshold →
Present; else late = minutes(punch − start), Half Day if late > 120 else
Late.  For OUT: punch < end → early = minutes(end − punch), Half Day
(Early) if early > 60 else Early Departure; else if punch > end + offset
→ Overtime with minutes(punch − end); else Present." -/
def specStatusEngine (punch_time : Nat) (direction : String)
    (shift : Option Shift) : String × Nat × Nat × Nat :=
  match shift with
  | none => ("Present", 0, 0, 0)
  | some s =>
    if direction = "IN" then
      if punch_time ≤ s.start_time + s.late_grace_mins * 60 then
        ("Present", 0, 0, 0)
      else
        let late := (punch_time - s.start_time) / 60
        ((if late > 120 then "Half Day" else "Late"), late, 0, 0)
    else
      if punch_time < s.end_time then
        let early := (s.end_time - punch_time) / 60
        ((if early > 60 then "Half Day (Early)" else "Early Departure"),
          0, early, 0)
      else if punch_time > s.end_time + s.overtime_start_mins * 60 then
        ("Overtime", 0, 0, (punch_time - s.end_time) / 60)
      else ("Present", 0, 0, 0)

/-! ## Punch helpers and recorder (`LocalDatabase.add_record`) -/

/-- `user_id = user_id or name` (database.py:218): Python `or` falls
through on `None` and on the empty string. -/
def resolveUid (user_id : Option String) (name : String) : String :=
  match user_id with
  | none => name
  | some s => if s = "" then name else s

/-- The rows selected by `WHERE user_id = ? AND punch_date = ?`, in
rowid order. -/
def userDayPunches (db : DB) (key : String) (d : Nat) : List PunchRecord :=
  db.records.filter (fun r => r.user_id == key && r.punch_date == d)

/-- One step of `ORDER BY punch_time DESC LIMIT 1`: keep the row with
the larger `punch_time`.  SQL leaves the order of equal timestamps
unspecified; this model lets the later row win a tie (ties never arise
in the runs considered, since the cooldown forces accepted punches at
least 60 s apart). -/
def lastPunchAux : Option PunchRecord → PunchRecord → Option PunchRecord
  | none, r => some r
  | some b, r => if b.punch_time ≤ r.punch_time then some r else some b

/-- `LocalDatabase.get_last_punch_today` (database.py:163-172). -/
def get_last_punch_today (db : DB) (key : String) (today : Nat) :
    Option PunchRecord :=
  (userDayPunches db key today).foldl lastPunchAux none

/-- `LocalDatabase.get_user_shift` (database.py:154-159):
`SELECT * FROM shifts ORDER BY id ASC LIMIT 1`; the model keeps the
`shifts` table in ascending-id order, so this is the head. -/
def get_user_shift (db : DB) : Option Shift :=
  db.shifts.head?

/-- The tail of `LocalDatabase.add_record` (database.py:220-253) after
the `get_last_punch_today` read: cooldown check against the snapshot,
IN/OUT toggle, status derivation and the insert.  `now` is the absolute
instant; `now - last.punch_time < 60` is the Python
`(dt_now - last_dt).total_seconds() < 60` (a punch not in the past gives
a non-positive difference, which is also `< 60`; `Nat` truncation agrees:
the difference is `0`). -/
def finishCall (db : DB) (now : Nat) (device_id name : String)
    (user_id : Option String) (confidence : Int)
    (last_punch : Option PunchRecord) : Option Nat × DB :=
  let p_date := now / 86400
  let p_clock := now % 86400
  let uid := resolveUid user_id name
  let cooldown : Bool := match last_punch with
    | some lp => decide (now - lp.punch_time < 60)
    | none => false
  if cooldown then (none, db)
  else
    let punch_type := match last_punch with
      | some lp => if lp.punch_type = "IN" then "OUT" else "IN"
      | none => "IN"
    let shift := get_user_shift db
    let shift_id := shift.map (fun s => s.id)
    let st := calculate_attendance_status p_clock punch_type shift
    let row : PunchRecord :=
      { id := db.next_id
        user_id := uid
        name := name
        device_id := device_id
        punch_time := now
        punch_date := p_date
        punch_clock := p_clock
        punch_type := punch_type
        shift_id := shift_id
        attendance_status := st.1
        late_minutes := st.2.1
        early_departure_minutes := st.2.2.1
        overtime_minutes := st.2.2.2
        confidence := confidence
        lan_synced := false
        mqtt_synced := false }
    (some db.next_id,
      { db with records := db.records ++ [row], next_id := db.next_id + 1 })

/-- `LocalDatabase.add_record` (database.py:214-253): read the last
punch of the day for the resolved user key, then run the rest of the
algorithm on that snapshot. -/
def add_record (db : DB) (now : Nat) (device_id name : String)
    (user_id : Option String) (confidence : Int) : Option Nat × DB :=
  finishCall db now device_id name user_id confidence
    (get_last_punch_today db (resolveUid user_id name) (now / 86400))

/-- A sequence of sequential `add_record` calls for one user, at the
given instants. -/
def runCalls (db : DB) (times : List Nat) (device_id name : String)
    (user_id : Option String) (confidence : Int) : DB :=
  times.foldl (fun s t => (add_record s t device_id name user_id confidence).2) db

/-! ## Sync flags (`mark_lan_synced` / `mark_mqtt_synced`) -/

/-- Effect of `UPDATE attendance_log SET lan_synced=1 WHERE id IN (...)`
on one row. -/
def setLan (ids : List Nat) (r : PunchRecord) : PunchRecord :=
  if r.id ∈ ids then { r with lan_synced := true } else r

/-- Effect of `UPDATE attendance_log SET mqtt_synced=1 WHERE id IN (...)`
on one row. -/
def setMqtt (ids : List Nat) (r : PunchRecord) : PunchRecord :=
  if r.id ∈ ids then { r with mqtt_synced := true } else r

/-- `LocalDatabase.mark_lan_synced` (database.py:267-276). -/
def mark_lan_synced (db : DB) (record_ids : List Nat) : DB :=
  if record_ids = [] then db
  else { db with records := db.records.map (setLan record_ids) }

/-- `LocalDatabase.mark_mqtt_synced` (database.py:290-299). -/
def mark_mqtt_synced (db : DB) (record_ids : List Nat) : DB :=
  if record_ids = [] then db
  else { db with records := db.records.map (setMqtt record_ids) }

/-- `LocalDatabase.get_unsynced_lan_records` (database.py:257-265):
`WHERE lan_synced = 0 ORDER BY id ASC LIMIT ?`.  The model's `records`
list is kept in ascending-id insertion order (see `idsSorted`), so the
query is a filter followed by `take`. -/
def get_unsynced_lan_records (db : DB) (limit : Nat) : List PunchRecord :=
  (db.records.filter (fun r => !r.lan_synced)).take limit

/-- `LocalDatabase.get_unsynced_mqtt_records` (database.py:280-288). -/
def get_unsynced_mqtt_records (db : DB) (limit : Nat) : List PunchRecord :=
  (db.records.filter (fun r => !r.mqtt_synced)).take limit

/-- Table well-formedness: `attendance_log` rows carry strictly
increasing ids (SQLite rowid order); every state reachable through
`add_record` from an empty table satisfies this. -/
def idsSorted (db : DB) : Prop :=
  db.records.Pairwise (fun a b => a.id < b.id)

instance (db : DB) : Decidable (idsSorted db) := by
  unfold idsSorted; infer_instance

/-! ## LAN sync cycle (`DataUploader._sync_data`, `server/api.py`) -/

/-- The JSON object built per record by `_sync_data` (uploader.py:78-93). -/
structure LanPayload where
  device_id : String
  user_id : String
  name : String
  punch_time : Nat
  punch_date : Nat
  punch_clock : Nat
  punch_type : String
  attendance_status : String
  late_minutes : Nat
  early_departure_minutes : Nat
  overtime_minutes : Nat
  confidence : Int
deriving DecidableEq

/-- Payload serialisation of one fetched record (uploader.py:79-92). -/
def toPayload (r : PunchRecord) : LanPayload :=
  { device_id := r.device_id
    user_id := r.user_id
    name := r.name
    punch_time := r.punch_time
    punch_date := r.punch_date
    punch_clock := r.punch_clock
    punch_type := r.punch_type
    attendance_status := r.attendance_status
    late_minutes := r.late_minutes
    early_departure_minutes := r.early_departure_minutes
    overtime_minutes := r.overtime_minutes
    confidence := r.confidence }

/-- Outcome of the single `requests.post` exchange: a response with some
HTTP status code, or a raised `RequestException` (timeout / transport
error). -/
inductive HttpOutcome where
  | resp (status_code : Nat)
  | exn
deriving DecidableEq

/-- `DataUploader._sync_data` (uploader.py:70-107): fetch up to 50
unsynced-for-LAN records; if none, do nothing (no request); otherwise
one POST, and only a 200 response marks exactly the batch's ids; any
other status or an exception changes nothing. -/
def sync_data (db : DB) (net : HttpOutcome) : DB :=
  let records := get_unsynced_lan_records db 50
  if records.isEmpty then db
  else
    match net with
    | .resp code =>
        if code = 200 then mark_lan_synced db (records.map (fun r => r.id))
        else db
    | .exn => db

/-- `receive_attendance` (server/api.py:49-60): the receiver inserts
each record (each insert reported success or failure by
`ServerDatabase.insert_attendance`), then answers HTTP 200 with body
`{"status": "success", "received": n, "saved": k}` - unconditionally.
`insert_ok` supplies the per-record storage outcomes.  Result:
(HTTP status, body status, received, saved). -/
def receive_attendance (records : List LanPayload) (insert_ok : List Bool) :
    Nat × String × Nat × Nat :=
  (200, "success", records.length,
    ((insert_ok.take records.length).filter (fun b => b)).length)

/-! ## Users table (`LocalDatabase.upsert_users`) -/

/-- A row of the `users` table (`user_id` is the primary key). -/
structure UserRow where
  user_id : String
  name : String
  synced_at : Nat
deriving DecidableEq

/-- A roster entry as received from the dashboard: a dict that may carry
the canonical keys or the alias keys (`id` / `employee_name`).  A
missing key is `none`. -/
structure RosterEntry where
  user_id : Option String
  id : Option String
  name : Option String
  employee_name : Option String
deriving DecidableEq

/-- Python `a or b` on optional strings: `None` and `""` fall through. -/
def orKey : Option String → Option String → Option String
  | none, b => b
  | some s, b => if s = "" then b else some s

/-- `u.get("user_id") or u.get("id")` (database.py:324). -/
def entryUid (e : RosterEntry) : Option String := orKey e.user_id e.id

/-- `u.get("name") or u.get("employee_name")` (database.py:325). -/
def entryName (e : RosterEntry) : Option String := orKey e.name e.employee_name

/-- Python truthiness of the resolved value (`if uid and name:`). -/
def truthy : Option String → Bool
  | none => false
  | some s => !(s == "")

/-- `INSERT INTO users ... ON CONFLICT(user_id) DO UPDATE SET name,
synced_at` (database.py:327-333): update the row with this primary key
if one exists, else append a new row. -/
def upsert_one (users : List UserRow) (uid nm : String) (now : Nat) :
    List UserRow :=
  if users.any (fun u => u.user_id == uid) then
    users.map (fun u =>
      if u.user_id == uid then { u with name := nm, synced_at := now } else u)
  else users ++ [{ user_id := uid, name := nm, synced_at := now }]

/-- The loop body of `upsert_users` for one entry: resolve the key
aliases and upsert only when both resolved values are truthy. -/
def upsertStep (now : Nat) (users : List UserRow) (e : RosterEntry) :
    List UserRow :=
  match entryUid e, entryName e with
  | some u, some n =>
      if !(u == "") && !(n == "") then upsert_one users u n now else users
  | _, _ => users

/-- `LocalDatabase.upsert_users` (database.py:314-334).  The second
component is the Python return value: the function body has no `return
<value>` statement (only the bare early `return`), so it always returns
`None`, encoded as `(none : Option Nat)`. -/
def upsert_users (users : List UserRow) (user_list : List RosterEntry)
    (now : Nat) : List UserRow × Option Nat :=
  if user_list = [] then (users, none)
  else (user_list.foldl (upsertStep now) users, none)

/-! ## Database initialisation (`LocalDatabase._init_db`) -/

/-- A row of `attendance_log` as seen by the migration: the columns the
migration reads or writes, plus an opaque remainder (`other`) holding
every other column's value, which the migration never touches.  An
`Option` value is `NULL` when `none`; a field of a column that is not in
the table's schema is meaningless until the column is added (adding it
overwrites the field with the column's declared default). -/
structure MigRow where
  punch_time : Option Nat
  timestamp : Option Nat
  synced : Option Nat
  lan_synced : Option Nat
  mqtt_synced : Option Nat
  other : List (String × Int)
deriving DecidableEq

/-- The on-disk file state that `_init_db` operates on. -/
structure FileState where
  attendanceExists : Bool
  cols : List String
  rows : List MigRow
  shifts : List Shift
  usersExists : Bool
deriving DecidableEq

/-- Columns of a freshly created `attendance_log`
(database.py:65-83). -/
def creationCols : List String :=
  ["id", "user_id", "name", "device_id", "punch_time", "punch_date",
   "punch_clock", "punch_type", "shift_id", "attendance_status",
   "late_minutes", "early_departure_minutes", "overtime_minutes",
   "confidence", "lan_synced", "mqtt_synced", "created_at"]

/-- The migration's `new_columns` dict keys, in order
(database.py:108-123). -/
def newColumns : List String :=
  ["user_id", "punch_time", "punch_date", "punch_clock", "punch_type",
   "shift_id", "attendance_status", "late_minutes",
   "early_departure_minutes", "overtime_minutes", "confidence",
   "lan_synced", "mqtt_synced", "created_at"]

/-- `ALTER TABLE attendance_log ADD COLUMN c ...`: append the column and
give every existing row the column's declared default (`NULL` for
`punch_time`, `0` for the sync flags; defaults of columns outside the
modelled five are opaquely encoded as `0` in `other`). -/
def addColumn : List String × List MigRow → String → List String × List MigRow
  | (cols, rows), c =>
    (cols ++ [c],
      rows.map (fun r =>
        if c = "punch_time" then { r with punch_time := none }
        else if c = "lan_synced" then { r with lan_synced := some 0 }
        else if c = "mqtt_synced" then { r with mqtt_synced := some 0 }
        else { r with other := r.other ++ [(c, 0)] }))

/-- `datetime(timestamp,'unixepoch','localtime')` (database.py:135):
the rendering of a legacy Unix timestamp as civil time.  Its exact value
is timezone-dependent and immaterial here; the model keeps the instant. -/
def unixToLocal (t : Nat) : Nat := t

/-- Backfill step 1 on one row (database.py:133-137):
`SET punch_time = datetime(timestamp,...) WHERE punch_time IS NULL AND
timestamp IS NOT NULL`. -/
def backfillTimeRow (r : MigRow) : MigRow :=
  match r.punch_time, r.timestamp with
  | none, some ts => { r with punch_time := some (unixToLocal ts) }
  | _, _ => r

/-- Backfill step 2 on one row (database.py:142-147):
`SET lan_synced = synced, mqtt_synced = synced WHERE synced = 1`. -/
def backfillSyncedRow (r : MigRow) : MigRow :=
  if r.synced = some 1 then
    { r with lan_synced := some 1, mqtt_synced := some 1 }
  else r

/-- `LocalDatabase._init_db` (database.py:49-150): create the tables if
missing, seed the default shift when the `shifts` table is empty,
snapshot the column list, add each `new_columns` entry absent from the
snapshot, then run the two legacy backfills (both conditioned on the
pre-migration snapshot, exactly as the code is). -/
def init_db (f : FileState) : FileState :=
  let att := if f.attendanceExists then (f.cols, f.rows) else (creationCols, [])
  let shifts1 := if f.shifts = [] then [defaultShift] else f.shifts
  let existing := att.1
  let att1 := newColumns.foldl
    (fun cr c => if c ∈ existing then cr else addColumn cr c) att
  let rows2 :=
    if "timestamp" ∈ existing ∧ "punch_time" ∉ existing then
      att1.2.map backfillTimeRow
    else att1.2
  let rows3 :=
    if "synced" ∈ existing then rows2.map backfillSyncedRow else rows2
  { attendanceExists := true
    cols := att1.1
    rows := rows3
    shifts := shifts1
    usersExists := true }

/-! ## Direction alternation -/

/-- The opposite punch direction, as computed by the auto-toggle
(database.py:229-231). -/
def toggle (s : String) : String := if s = "IN" then "OUT" else "IN"

/-- `toggle` iterated `n` times. -/
def toggleIter (e : String) : Nat → String
  | 0 => e
  | n + 1 => toggleIter (toggle e) n

/-- `altFrom e l`: the directions `l` run `e, toggle e, toggle (toggle
e), ...`. -/
def altFrom (e : String) : List String → Bool
  | [] => true
  | d :: ds => (d == e) && altFrom (toggle e) ds

/-- Spec §8: the directions strictly alternate IN, OUT, IN, OUT, ...
starting with IN. -/
def alternatesIN (l : List String) : Bool := altFrom "IN" l

/-! ## Concurrency model for `add_record`

`add_record` performs its `get_last_punch_today` read and its `INSERT`
on two separate SQLite connections joined only by plain Python code: each
store operation is individually atomic (one statement, WAL journal), but
nothing prevents a thread switch between the read and the insert.  The
model therefore splits an in-flight call into two atomic phases: the
snapshot read, and `finishCall` applied to that snapshot.  Running the
two phases back-to-back is exactly `add_record`. -/

/-- The arguments of one `add_record` invocation, with the
`datetime.now()` instant it observes. -/
structure PendingCall where
  now : Nat
  device_id : String
  name : String
  user_id : Option String
  confidence : Int
deriving DecidableEq

/-- Progress of one in-flight `add_record` call. -/
inductive CallPhase where
  | ready
  | readDone (snapshot : Option PunchRecord)
  | finished (ret : Option Nat)
deriving DecidableEq

/-- The store plus the in-flight calls. -/
structure SysState where
  db : DB
  threads : List (PendingCall × CallPhase)
deriving DecidableEq

/-- Execute the next atomic phase of one call against the store. -/
def stepThread (db : DB) (c : PendingCall) : CallPhase → CallPhase × DB
  | .ready =>
      (.readDone (get_last_punch_today db (resolveUid c.user_id c.name)
        (c.now / 86400)), db)
  | .readDone snap =>
      let r := finishCall db c.now c.device_id c.name c.user_id c.confidence snap
      (.finished r.1, r.2)
  | .finished ret => (.finished ret, db)

/-- Scheduler step: run the next phase of thread `i` (no-op on an
out-of-range index). -/
def stepSys (s : SysState) (i : Nat) : SysState :=
  match s.threads.get? i with
  | none => s
  | some tc =>
      let pr := stepThread s.db tc.1 tc.2
      { db := pr.2, threads := s.threads.set i (tc.1, pr.1) }

/-- Run a schedule (a list of thread indices). -/
def runSchedule (s : SysState) (sched : List Nat) : SysState :=
  sched.foldl stepSys s

/-! ## Helper lemmas -/

lemma toggleIter_succ (e : String) (n : Nat) :
    toggleIter e (n + 1) = toggle (toggleIter e n) := by
  induction n generalizing e with
  | zero => rfl
  | succ n ih => exact ih (toggle e)

lemma altFrom_concat (e s : String) (l : List String) :
    altFrom e (l ++ [s]) = (altFrom e l && (s == toggleIter e l.length)) := by
  induction l generalizing e with
  | nil => simp [altFrom, toggleIter]
  | cons d ds ih =>
    rw [List.cons_append]
    show (d == e && altFrom (toggle e) (ds ++ [s]))
      = ((d == e && altFrom (toggle e) ds) && (s == toggleIter e (ds.length + 1)))
    rw [ih (toggle e), Bool.and_assoc]
    exact rfl

lemma foldl_lastPunchAux_some (l : List PunchRecord) (b : PunchRecord) :
    ∃ c, l.foldl lastPunchAux (some b) = some c ∧ (c = b ∨ c ∈ l) ∧
      b.punch_time ≤ c.punch_time ∧ ∀ p ∈ l, p.punch_time ≤ c.punch_time := by
  induction l generalizing b with
  | nil => exact ⟨b, rfl, Or.inl rfl, le_refl _, by simp⟩
  | cons r rs ih =>
    simp only [List.foldl_cons, lastPunchAux]
    by_cases h : b.punch_time ≤ r.punch_time
    · obtain ⟨c, hc, hmem, hle, hall⟩ := ih r
      refine ⟨c, by simpa [h] using hc, ?_, le_trans h hle, ?_⟩
      · rcases hmem with rfl | hm
        · exact Or.inr (List.mem_cons_self _ _)
        · exact Or.inr (List.mem_cons_of_mem _ hm)
      · intro p hp
        rcases List.mem_cons.mp hp with rfl | hm
        · exact hle
        · exact hall p hm
    · obtain ⟨c, hc, hmem, hle, hall⟩ := ih b
      refine ⟨c, by simpa [h] using hc, ?_, hle, ?_⟩
      · rcases hmem with rfl | hm
        · exact Or.inl rfl
        · exact Or.inr (List.mem_cons_of_mem _ hm)
      · intro p hp
        rcases List.mem_cons.mp hp with rfl | hm
        · exact le_trans (le_of_not_le h) hle
        · exact hall p hm

lemma get_last_punch_today_eq_none (db : DB) (key : String) (d : Nat) :
    get_last_punch_today db key d = none ↔ userDayPunches db key d = [] := by
  unfold get_last_punch_today
  cases h : userDayPunches db key d with
  | nil => simp
  | cons r rs =>
    simp only [List.foldl_cons, lastPunchAux]
    obtain ⟨c, hc, -, -, -⟩ := foldl_lastPunchAux_some rs r
    simp [hc]

lemma get_last_punch_today_spec (db : DB) (key : String) (d : Nat)
    (c : PunchRecord) (h : get_last_punch_today db key d = some c) :
    c ∈ userDayPunches db key d ∧
      ∀ p ∈ userDayPunches db key d, p.punch_time ≤ c.punch_time := by
  unfold get_last_punch_today at h
  cases hl : userDayPunches db key d with
  | nil => rw [hl] at h; simp at h
  | cons r rs =>
    rw [hl] at h
    simp only [List.foldl_cons, lastPunchAux] at h
    obtain ⟨c', hc', hmem, hle, hall⟩ := foldl_lastPunchAux_some rs r
    rw [hc'] at h
    cases h
    constructor
    · rcases hmem with rfl | hm
      · exact List.mem_cons_self _ _
      · exact List.mem_cons_of_mem _ hm
    · intro p hp
      rcases List.mem_cons.mp hp with rfl | hm
      · exact hle
      · exact hall p hm

section Forall2Helpers

variable {α β : Type}

lemma forall2_of_map (P : α → α → Prop) (f : α → α) (l : List α)
    (h : ∀ a ∈ l, P a (f a)) : List.Forall₂ P l (l.map f) := by
  induction l with
  | nil => exact List.Forall₂.nil
  | cons a as ih =>
    exact List.Forall₂.cons (h a (List.mem_cons_self _ _))
      (ih fun a ha => h a (List.mem_cons_of_mem _ ha))

lemma forall2_refl_of (P : α → α → Prop) (l : List α)
    (h : ∀ a ∈ l, P a a) : List.Forall₂ P l l := by
  induction l with
  | nil => exact List.Forall₂.nil
  | cons a as ih =>
    exact List.Forall₂.cons (h a (List.mem_cons_self _ _))
      (ih fun a ha => h a (List.mem_cons_of_mem _ ha))

lemma map_proj_of_fix (f : α → α) (g : α → β) (l : List α)
    (h : ∀ a, g (f a) = g a) : (l.map f).map g = l.map g := by
  induction l with
  | nil => rfl
  | cons a as ih => simp [ih, h a]

end Forall2Helpers

lemma setLan_mqtt (ids : List Nat) (r : PunchRecord) :
    (setLan ids r).mqtt_synced = r.mqtt_synced := by
  unfold setLan; split <;> rfl

lemma setMqtt_lan (ids : List Nat) (r : PunchRecord) :
    (setMqtt ids r).lan_synced = r.lan_synced := by
  unfold setMqtt; split <;> rfl

/-- Pointwise characterisation of `mark_lan_synced`. -/
lemma mark_lan_synced_pointwise (db : DB) (ids : List Nat) :
    List.Forall₂ (fun r r' =>
        (r.id ∈ ids → r' = { r with lan_synced := true }) ∧
        (r.id ∉ ids → r' = r))
      db.records (mark_lan_synced db ids).records := by
  unfold mark_lan_synced
  split
  · exact forall2_refl_of _ _ fun a _ =>
      ⟨fun hin => by simp_all, fun _ => rfl⟩
  · exact forall2_of_map _ _ _ fun a _ => by
      unfold setLan; split <;> simp_all

/-- Pointwise characterisation of `mark_mqtt_synced`. -/
lemma mark_mqtt_synced_pointwise (db : DB) (ids : List Nat) :
    List.Forall₂ (fun r r' =>
        (r.id ∈ ids → r' = { r with mqtt_synced := true }) ∧
        (r.id ∉ ids → r' = r))
      db.records (mark_mqtt_synced db ids).records := by
  unfold mark_mqtt_synced
  split
  · exact forall2_refl_of _ _ fun a _ =>
      ⟨fun hin => by simp_all, fun _ => rfl⟩
  · exact forall2_of_map _ _ _ fun a _ => by
      unfold setMqtt; split <;> simp_all

lemma mark_lan_synced_frame (db : DB) (ids : List Nat) :
    (mark_lan_synced db ids).records.map (fun r => r.mqtt_synced)
        = db.records.map (fun r => r.mqtt_synced) ∧
      (mark_lan_synced db ids).shifts = db.shifts ∧
      (mark_lan_synced db ids).next_id = db.next_id := by
  unfold mark_lan_synced
  split
  · exact ⟨rfl, rfl, rfl⟩
  · exact ⟨map_proj_of_fix _ _ _ (setLan_mqtt ids), rfl, rfl⟩

lemma mark_mqtt_synced_frame (db : DB) (ids : List Nat) :
    (mark_mqtt_synced db ids).records.map (fun r => r.lan_synced)
        = db.records.map (fun r => r.lan_synced) ∧
      (mark_mqtt_synced db ids).shifts = db.shifts ∧
      (mark_mqtt_synced db ids).next_id = db.next_id := by
  unfold mark_mqtt_synced
  split
  · exact ⟨rfl, rfl, rfl⟩
  · exact ⟨map_proj_of_fix _ _ _ (setMqtt_lan ids), rfl, rfl⟩

/-- The row inserted by an accepted `add_record` call that chose
direction `pt` (a characterisation of the record literal inside
`finishCall`, proven to be exactly what is inserted). -/
def newRow (db : DB) (now : Nat) (dev nm : String) (uid : Option String)
    (conf : Int) (pt : String) : PunchRecord :=
  { id := db.next_id
    user_id := resolveUid uid nm
    name := nm
    device_id := dev
    punch_time := now
    punch_date := now / 86400
    punch_clock := now % 86400
    punch_type := pt
    shift_id := (get_user_shift db).map (fun s => s.id)
    attendance_status := (calculate_attendance_status (now % 86400) pt (get_user_shift db)).1
    late_minutes := (calculate_attendance_status (now % 86400) pt (get_user_shift db)).2.1
    early_departure_minutes :=
      (calculate_attendance_status (now % 86400) pt (get_user_shift db)).2.2.1
    overtime_minutes :=
      (calculate_attendance_status (now % 86400) pt (get_user_shift db)).2.2.2
    confidence := conf
    lan_synced := false
    mqtt_synced := false }

/-- An accepted `add_record` call with no earlier punch today: a fresh
IN row is appended. -/
lemma add_record_first (db : DB) (now : Nat) (dev nm : String)
    (uid : Option String) (conf : Int)
    (h : get_last_punch_today db (resolveUid uid nm) (now / 86400) = none) :
    add_record db now dev nm uid conf
      = (some db.next_id,
          { db with records := db.records ++ [newRow db now dev nm uid conf "IN"],
                    next_id := db.next_id + 1 }) := by
  unfold add_record
  rw [h]
  rfl

/-- A suppressed `add_record` call: the last punch today is younger than
60 seconds, nothing is written. -/
lemma add_record_suppressed (db : DB) (now : Nat) (dev nm : String)
    (uid : Option String) (conf : Int) (c : PunchRecord)
    (hgl : get_last_punch_today db (resolveUid uid nm) (now / 86400) = some c)
    (hcool : now - c.punch_time < 60) :
    add_record db now dev nm uid conf = (none, db) := by
  unfold add_record
  rw [hgl]
  unfold finishCall
  simp [hcool]

/-- An accepted `add_record` call with an earlier punch today: the
toggled row is appended. -/
lemma add_record_toggle (db : DB) (now : Nat) (dev nm : String)
    (uid : Option String) (conf : Int) (c : PunchRecord)
    (hgl : get_last_punch_today db (resolveUid uid nm) (now / 86400) = some c)
    (hcool : ¬now - c.punch_time < 60) :
    add_record db now dev nm uid conf
      = (some db.next_id,
          { db with records := db.records ++ [newRow db now dev nm uid conf (if c.punch_type = "IN" then "OUT" else "IN")], next_id := db.next_id + 1 }) := by
  unfold add_record
  rw [hgl]
  unfold finishCall newRow
  simp [hcool]

/-- `userDayPunches` after appending one row. -/
lemma userDayPunches_snoc (db db2 : DB) (row : PunchRecord)
    (key : String) (d : Nat) (h : db2.records = db.records ++ [row]) :
    userDayPunches db2 key d
      = userDayPunches db key d
        ++ List.filter (fun r => r.user_id == key && r.punch_date == d) [row] := by
  unfold userDayPunches
  rw [h, List.filter_append]

/-! ## Claim theorems -/

/-- C1: `calculate_attendance_status` equals the §4.1 reference
definition for every punch timestamp, direction in {IN, OUT} and shift
(or none): no shift gives ("Present",0,0,0); IN within grace is Present
with late 0, otherwise late = truncated minutes since shift start with
Half Day above 120 minutes, else Late; OUT before shift end computes
truncated early minutes with Half Day (Early) above 60, else Early
Departure; OUT beyond end + overtime offset is Overtime with truncated
minutes past end, else Present - reproducing all six §8 test vectors on
the {09:00:00, 18:00:00, grace 15, offset 30} shift. -/
theorem c1_status_engine_matches_spec (t : Nat) (d : String)
    (s : Option Shift) (h : d = "IN" ∨ d = "OUT") :
    calculate_attendance_status t d s = specStatusEngine t d s ∧
    calculate_attendance_status (9 * 3600 + 10 * 60) "IN" (some defaultShift)
      = ("Present", 0, 0, 0) ∧
    calculate_attendance_status (9 * 3600 + 20 * 60) "IN" (some defaultShift)
      = ("Late", 20, 0, 0) ∧
    calculate_attendance_status (11 * 3600 + 30 * 60) "IN" (some defaultShift)
      = ("Half Day", 150, 0, 0) ∧
    calculate_attendance_status (17 * 3600 + 30 * 60) "OUT" (some defaultShift)
      = ("Early Departure", 0, 30, 0) ∧
    calculate_attendance_status (16 * 3600 + 50 * 60) "OUT" (some defaultShift)
      = ("Half Day (Early)", 0, 70, 0) ∧
    calculate_attendance_status (18 * 3600 + 45 * 60) "OUT" (some defaultShift)
      = ("Overtime", 0, 0, 45) := by
  refine ⟨?_, by decide, by decide, by decide, by decide, by decide, by decide⟩
  cases s with
  | none => rcases h with rfl | rfl <;> rfl
  | some sh =>
    rcases h with rfl | rfl
    · simp only [calculate_attendance_status, specStatusEngine, if_true]
      split_ifs <;> first | rfl | omega | simp_all
    · simp only [calculate_attendance_status, specStatusEngine, if_true]
      split_ifs <;> first | rfl | omega | simp_all

/-- Witness for C1 at a concrete input. -/
theorem c1_witness :
    calculate_attendance_status (9 * 3600 + 20 * 60) "IN" (some defaultShift)
      = specStatusEngine (9 * 3600 + 20 * 60) "IN" (some defaultShift) :=
  (c1_status_engine_matches_spec (9 * 3600 + 20 * 60) "IN" (some defaultShift)
    (Or.inl rfl)).1

/-- Sample rows used by the concrete witnesses. -/
def sampleRec : PunchRecord :=
  { id := 1
    user_id := "u1"
    name := "Alice"
    device_id := "DEV"
    punch_time := 1000
    punch_date := 0
    punch_clock := 1000
    punch_type := "IN"
    shift_id := some 1
    attendance_status := "Present"
    late_minutes := 0
    early_departure_minutes := 0
    overtime_minutes := 0
    confidence := 0
    lan_synced := false
    mqtt_synced := false }

/-- Sample store used by the concrete witnesses. -/
def sampleDB : DB :=
  { shifts := [defaultShift], records := [sampleRec], next_id := 2 }

/-- C4: `mark_lan_synced` sets `lan_synced` to true for exactly the
given ids, leaving every record's `mqtt_synced` flag and all other
fields (and the rest of the store) unchanged; `mark_mqtt_synced` is
symmetric; both are no-ops on an empty id list. -/
theorem c4_mark_synced_exact_and_frame (db : DB) (lanIds mqttIds : List Nat) :
    mark_lan_synced db [] = db ∧
    mark_mqtt_synced db [] = db ∧
    List.Forall₂ (fun r r' =>
        (r.id ∈ lanIds → r' = { r with lan_synced := true }) ∧
        (r.id ∉ lanIds → r' = r))
      db.records (mark_lan_synced db lanIds).records ∧
    (mark_lan_synced db lanIds).records.map (fun r => r.mqtt_synced)
      = db.records.map (fun r => r.mqtt_synced) ∧
    (mark_lan_synced db lanIds).shifts = db.shifts ∧
    (mark_lan_synced db lanIds).next_id = db.next_id ∧
    List.Forall₂ (fun r r' =>
        (r.id ∈ mqttIds → r' = { r with mqtt_synced := true }) ∧
        (r.id ∉ mqttIds → r' = r))
      db.records (mark_mqtt_synced db mqttIds).records ∧
    (mark_mqtt_synced db mqttIds).records.map (fun r => r.lan_synced)
      = db.records.map (fun r => r.lan_synced) ∧
    (mark_mqtt_synced db mqttIds).shifts = db.shifts ∧
    (mark_mqtt_synced db mqttIds).next_id = db.next_id := by
  obtain ⟨hl1, hl2, hl3⟩ := mark_lan_synced_frame db lanIds
  obtain ⟨hm1, hm2, hm3⟩ := mark_mqtt_synced_frame db mqttIds
  exact ⟨by simp [mark_lan_synced], by simp [mark_mqtt_synced],
    mark_lan_synced_pointwise db lanIds, hl1, hl2, hl3,
    mark_mqtt_synced_pointwise db mqttIds, hm1, hm2, hm3⟩

/-- Witness for C4 on a concrete store: marking id 1 for LAN leaves the
record's cloud flag untouched. -/
theorem c4_witness :
    (mark_lan_synced sampleDB [1]).records.map (fun r => r.mqtt_synced)
      = sampleDB.records.map (fun r => r.mqtt_synced) :=
  (c4_mark_synced_exact_and_frame sampleDB [1] [1]).2.2.2.1

/-- C5: one LAN sync cycle fetches at most 50 unsynced-for-LAN punches
in ascending id order; a 200 response (the receiver's explicit success
indication - `receive_attendance` answers HTTP 200 with body status
"success") marks `lan_synced` on exactly the fetched batch's ids; any
other status or a transport exception changes no flag, so the next
cycle fetches the identical batch. -/
theorem c5_lan_sync_cycle (db : DB) (hs : idsSorted db) :
    (get_unsynced_lan_records db 50).length ≤ 50 ∧
    (∀ r ∈ get_unsynced_lan_records db 50, r.lan_synced = false) ∧
    ((get_unsynced_lan_records db 50).map (fun r => r.id)).Pairwise
      (fun a b : Nat => a < b) ∧
    sync_data db (.resp 200)
      = mark_lan_synced db ((get_unsynced_lan_records db 50).map (fun r => r.id)) ∧
    List.Forall₂ (fun r r' =>
        (r.id ∈ (get_unsynced_lan_records db 50).map (fun r => r.id) →
          r' = { r with lan_synced := true }) ∧
        (r.id ∉ (get_unsynced_lan_records db 50).map (fun r => r.id) → r' = r))
      db.records (sync_data db (.resp 200)).records ∧
    (∀ code, code ≠ 200 → sync_data db (.resp code) = db) ∧
    sync_data db .exn = db ∧
    (∀ code, code ≠ 200 →
      get_unsynced_lan_records (sync_data db (.resp code)) 50
        = get_unsynced_lan_records db 50) ∧
    get_unsynced_lan_records (sync_data db .exn) 50
      = get_unsynced_lan_records db 50 ∧
    (∀ recs oks, (receive_attendance recs oks).1 = 200 ∧
      (receive_attendance recs oks).2.1 = "success") := by
  have hfail : ∀ code, code ≠ 200 → sync_data db (.resp code) = db := by
    intro code hc
    unfold sync_data
    by_cases hemp : (get_unsynced_lan_records db 50).isEmpty
    · simp [hemp]
    · simp [hemp, hc]
  have hexn : sync_data db .exn = db := by
    unfold sync_data
    by_cases hemp : (get_unsynced_lan_records db 50).isEmpty
    · simp [hemp]
    · simp [hemp]
  have hsub : List.Sublist (get_unsynced_lan_records db 50) db.records :=
    List.Sublist.trans (List.take_sublist _ _) (List.filter_sublist _)
  have hok : sync_data db (.resp 200)
      = mark_lan_synced db ((get_unsynced_lan_records db 50).map (fun r => r.id)) := by
    unfold sync_data
    by_cases hemp : (get_unsynced_lan_records db 50).isEmpty
    · rw [List.isEmpty_iff] at hemp
      simp [hemp, mark_lan_synced]
    · simp [hemp]
  refine ⟨List.length_take_le _ _, ?_, ?_, hok, ?_, hfail, hexn,
    fun code hc => by rw [hfail code hc], by rw [hexn], fun recs oks => ⟨rfl, rfl⟩⟩
  · intro r hr
    have h2 := (List.mem_filter.mp (List.mem_of_mem_take hr)).2
    simpa using h2
  · rw [List.pairwise_map]
    exact List.Pairwise.sublist hsub hs
  · rw [hok]
    exact mark_lan_synced_pointwise db _

/-- Witness for C5 on a concrete store. -/
theorem c5_witness :
    sync_data sampleDB (.resp 200) = mark_lan_synced sampleDB
      ((get_unsynced_lan_records sampleDB 50).map (fun r => r.id)) :=
  (c5_lan_sync_cycle sampleDB (by decide)).2.2.2.1

/-- C2 counterexample: the cooldown lookup is scoped to the current
calendar date, so two recognition events 30 seconds apart that straddle
midnight (23:59:30 and 00:00:00) are BOTH stored: two events within 60
seconds of each other yield two records, not exactly one. -/
theorem c2_counterexample :
    (86400 : Nat) - 86370 < 60 ∧
    ((add_record (⟨[], [], 1⟩ : DB) 86370 "D" "alice" none 0).2).records.length = 1 ∧
    ((add_record ((add_record (⟨[], [], 1⟩ : DB) 86370 "D" "alice" none 0).2)
        86400 "D" "alice" none 0).2).records.length = 2 ∧
    ((add_record ((add_record (⟨[], [], 1⟩ : DB) 86370 "D" "alice" none 0).2)
        86400 "D" "alice" none 0).2).records.length ≠ 1 :=
  ⟨by decide, by decide, by decide, by decide⟩

/-- C2 (amended): if a punch for the user exists on the current
calendar date less than 60 seconds before now, `add_record` returns
null and the store is unchanged; consequently two recognition events
for the same user less than 60 seconds apart ON THE SAME CALENDAR DAY,
the first finding no earlier punch that day, yield exactly one stored
record. -/
theorem c2_cooldown_suppression (db : DB) (now t1 t2 : Nat)
    (dev nm : String) (uid : Option String) (conf : Int) :
    ((∃ p ∈ db.records, p.user_id = resolveUid uid nm ∧
        p.punch_date = now / 86400 ∧ now - p.punch_time < 60) →
      add_record db now dev nm uid conf = (none, db)) ∧
    (userDayPunches db (resolveUid uid nm) (t1 / 86400) = [] →
      t1 ≤ t2 → t2 - t1 < 60 → t2 / 86400 = t1 / 86400 →
      (add_record db t1 dev nm uid conf).1 = some db.next_id ∧
      (add_record db t1 dev nm uid conf).2.records.length
        = db.records.length + 1 ∧
      add_record (add_record db t1 dev nm uid conf).2 t2 dev nm uid conf
        = (none, (add_record db t1 dev nm uid conf).2)) := by
  constructor
  · rintro ⟨p, hpmem, hpu, hpd, hpt⟩
    have hpf : p ∈ userDayPunches db (resolveUid uid nm) (now / 86400) := by
      unfold userDayPunches
      rw [List.mem_filter]
      exact ⟨hpmem, by simp [hpu, hpd]⟩
    cases hgl : get_last_punch_today db (resolveUid uid nm) (now / 86400) with
    | none =>
      rw [get_last_punch_today_eq_none] at hgl
      rw [hgl] at hpf
      simp at hpf
    | some c =>
      have hspec := get_last_punch_today_spec db _ _ c hgl
      have hle := hspec.2 p hpf
      exact add_record_suppressed db now dev nm uid conf c hgl (by omega)
  · intro h0 hle12 hdelta hday
    have hgl1 : get_last_punch_today db (resolveUid uid nm) (t1 / 86400) = none :=
      (get_last_punch_today_eq_none db _ _).mpr h0
    have h1 := add_record_first db t1 dev nm uid conf hgl1
    rw [h1]
    refine ⟨rfl, by simp, ?_⟩
    have hday2 : userDayPunches
        { db with records := db.records ++ [newRow db t1 dev nm uid conf "IN"], next_id := db.next_id + 1 }
        (resolveUid uid nm) (t2 / 86400)
        = [newRow db t1 dev nm uid conf "IN"] := by
      rw [hday,
        userDayPunches_snoc db _ (newRow db t1 dev nm uid conf "IN") _ _ rfl, h0]
      simp [newRow]
    have hgl2 : get_last_punch_today
        { db with records := db.records ++ [newRow db t1 dev nm uid conf "IN"], next_id := db.next_id + 1 }
        (resolveUid uid nm) (t2 / 86400) = some (newRow db t1 dev nm uid conf "IN") := by
      unfold get_last_punch_today
      rw [hday2]
      rfl
    exact add_record_suppressed _ t2 dev nm uid conf _ hgl2
      (by simpa [newRow] using hdelta)

/-- Witness for C2 (amended) on a concrete store: a punch 30 seconds
old suppresses the next call. -/
theorem c2_witness :
    add_record sampleDB 1030 "DEV" "Alice" (some "u1") 0 = (none, sampleDB) :=
  (c2_cooldown_suppression sampleDB 1030 0 0 "DEV" "Alice" (some "u1") 0).1
    ⟨sampleRec, by decide⟩

/-- Key congruence for `add_record`: the call only depends on the
resolved user key. -/
lemma add_record_key_congr (db : DB) (now : Nat) (dev nm : String)
    (conf : Int) (u1 u2 : Option String)
    (h : resolveUid u1 nm = resolveUid u2 nm) :
    add_record db now dev nm u1 conf = add_record db now dev nm u2 conf := by
  unfold add_record finishCall
  rw [h]

/-- C10: an `add_record` call with a null (or empty) user identifier
stores the display name in the record's `user_id` field, and keys the
cooldown and direction-toggle lookups by that substituted name: the
call behaves identically to one whose user id IS the name. -/
theorem c10_null_user_id_uses_name (db : DB) (now : Nat) (dev nm : String)
    (conf : Int) :
    add_record db now dev nm none conf = add_record db now dev nm (some nm) conf ∧
    add_record db now dev nm (some "") conf
      = add_record db now dev nm (some nm) conf ∧
    resolveUid none nm = nm ∧
    resolveUid (some "") nm = nm ∧
    (∀ rid db2, add_record db now dev nm none conf = (some rid, db2) →
      ∃ row : PunchRecord, db2.records = db.records ++ [row] ∧
        row.user_id = nm ∧ rid = db.next_id) := by
  have hid : resolveUid (some nm) nm = nm := by
    unfold resolveUid
    exact ite_self nm
  have hnone : resolveUid none nm = nm := rfl
  have hempty : resolveUid (some "") nm = nm := rfl
  refine ⟨add_record_key_congr db now dev nm conf none (some nm)
      (by rw [hid]; exact hnone),
    add_record_key_congr db now dev nm conf (some "") (some nm)
      (by rw [hid]; exact hempty),
    hnone, hempty, ?_⟩
  intro rid db2 hcall
  cases hgl : get_last_punch_today db (resolveUid none nm) (now / 86400) with
  | none =>
    rw [add_record_first db now dev nm none conf hgl] at hcall
    injection hcall with h1 h2
    injection h1 with h1
    exact ⟨newRow db now dev nm none conf "IN", by rw [← h2], rfl, h1.symm⟩
  | some c =>
    by_cases hcool : now - c.punch_time < 60
    · rw [add_record_suppressed db now dev nm none conf c hgl hcool] at hcall
      simp at hcall
    · rw [add_record_toggle db now dev nm none conf c hgl hcool] at hcall
      injection hcall with h1 h2
      injection h1 with h1
      exact ⟨newRow db now dev nm none conf
          (if c.punch_type = "IN" then "OUT" else "IN"),
        by rw [← h2], rfl, h1.symm⟩

/-- Invariant carried across a day of punches for one user: the day's
rows are in strictly increasing time order (so the `ORDER BY punch_time
DESC LIMIT 1` row is the most recently inserted one) and their
directions alternate IN, OUT, IN, ... -/
def dayInv (db : DB) (key : String) (d : Nat) : Prop :=
  (userDayPunches db key d).Pairwise (fun a b => a.punch_time < b.punch_time) ∧
  alternatesIN ((userDayPunches db key d).map (fun r => r.punch_type)) = true

/-- One `add_record` call on day `d` preserves `dayInv`: a suppressed
call changes nothing; an accepted call appends a row at least 60 s
after the day's last row, carrying the toggled direction. -/
lemma dayInv_step (db : DB) (t : Nat) (dev nm : String) (uid : Option String)
    (conf : Int) (d : Nat) (ht : t / 86400 = d)
    (h : dayInv db (resolveUid uid nm) d) :
    dayInv (add_record db t dev nm uid conf).2 (resolveUid uid nm) d := by
  cases hgl : get_last_punch_today db (resolveUid uid nm) (t / 86400) with
  | none =>
    have hempty : userDayPunches db (resolveUid uid nm) d = [] := by
      rw [← ht]
      exact (get_last_punch_today_eq_none db _ _).mp hgl
    rw [add_record_first db t dev nm uid conf hgl]
    have hlist : userDayPunches
        { db with records := db.records ++ [newRow db t dev nm uid conf "IN"],
                  next_id := db.next_id + 1 }
        (resolveUid uid nm) d = [newRow db t dev nm uid conf "IN"] := by
      rw [userDayPunches_snoc db _ _ _ _ rfl, hempty]
      simp [newRow, ht]
    constructor
    · rw [hlist]
      exact List.pairwise_singleton _ _
    · rw [hlist]
      rfl
  | some c =>
    by_cases hcool : t - c.punch_time < 60
    · rw [add_record_suppressed db t dev nm uid conf c hgl hcool]
      exact h
    · rw [add_record_toggle db t dev nm uid conf c hgl hcool]
      obtain ⟨hPW, hAlt⟩ := h
      have hspec := get_last_punch_today_spec db _ _ c hgl
      rw [ht] at hspec
      have hne : userDayPunches db (resolveUid uid nm) d ≠ [] := by
        intro he
        rw [he] at hspec
        simp at hspec
      obtain ⟨m, x, hmx⟩ :=
        (List.eq_nil_or_concat (userDayPunches db (resolveUid uid nm) d)).resolve_left hne
      rw [List.concat_eq_append] at hmx
      -- the queried row is the concat row
      have hcx : c = x := by
        rcases List.mem_append.mp (hmx ▸ hspec.1) with hm | hx
        · exfalso
          have hxmem : x ∈ userDayPunches db (resolveUid uid nm) d := by
            rw [hmx]
            exact List.mem_append_right _ (List.mem_cons_self _ _)
          have hxc := hspec.2 x hxmem
          have hPW2 := hmx ▸ hPW
          rw [List.pairwise_append] at hPW2
          have := hPW2.2.2 c hm x (List.mem_cons_self _ _)
          omega
        · simpa using hx
      subst hcx
      have hct : c.punch_time < t := by omega
      have hall : ∀ p ∈ userDayPunches db (resolveUid uid nm) d,
          p.punch_time < t := fun p hp => by
        have := hspec.2 p hp
        omega
      have hlist : userDayPunches
          { db with records := db.records ++ [newRow db t dev nm uid conf (if c.punch_type = "IN" then "OUT" else "IN")], next_id := db.next_id + 1 }
          (resolveUid uid nm) d
          = userDayPunches db (resolveUid uid nm) d
            ++ [newRow db t dev nm uid conf (if c.punch_type = "IN" then "OUT" else "IN")] := by
        rw [userDayPunches_snoc db _ _ _ _ rfl]
        simp [newRow, ht]
      constructor
      · rw [hlist, List.pairwise_append]
        refine ⟨hPW, List.pairwise_singleton _ _, ?_⟩
        intro a ha b hb
        rw [List.mem_singleton] at hb
        subst hb
        have : a.punch_time < t := hall a ha
        simpa [newRow] using this
      · rw [hlist, List.map_append]
        have hrowty : (newRow db t dev nm uid conf
            (if c.punch_type = "IN" then "OUT" else "IN")).punch_type
            = toggle c.punch_type := rfl
        show altFrom "IN" _ = true
        rw [List.map_singleton, hrowty, altFrom_concat]
        -- the prefix alternates, and the new direction is the toggle of
        -- the last row's, which sits at position m.length
        have hAlt2 : altFrom "IN"
            ((userDayPunches db (resolveUid uid nm) d).map (fun r => r.punch_type)) = true := hAlt
        rw [hmx, List.map_append, List.map_singleton, altFrom_concat] at hAlt2
        rw [Bool.and_eq_true, beq_iff_eq] at hAlt2
        obtain ⟨hAltm, hxty⟩ := hAlt2
        rw [Bool.and_eq_true, beq_iff_eq]
        refine ⟨by rw [hmx, List.map_append, List.map_singleton, altFrom_concat,
            Bool.and_eq_true, beq_iff_eq]; exact ⟨hAltm, hxty⟩, ?_⟩
        rw [hmx]
        simp only [List.length_append, List.length_map, List.length_singleton]
        rw [toggleIter_succ]
        rw [List.length_map] at hxty
        rw [hxty]

/-- `dayInv` is preserved by any sequence of same-day `add_record`
calls. -/
lemma dayInv_runCalls (db : DB) (ts : List Nat) (dev nm : String)
    (uid : Option String) (conf : Int) (d : Nat)
    (hts : ∀ t ∈ ts, t / 86400 = d) (h : dayInv db (resolveUid uid nm) d) :
    dayInv (runCalls db ts dev nm uid conf) (resolveUid uid nm) d := by
  induction ts generalizing db with
  | nil => exact h
  | cons t ts ih =>
    exact ih _ (fun u hu => hts u (List.mem_cons_of_mem _ hu))
      (dayInv_step db t dev nm uid conf d (hts t (List.mem_cons_self _ _)) h)

/-- C3: starting from a day with no punches for the user, any sequence
of sequential `add_record` calls on that calendar day leaves the user's
stored directions strictly alternating IN, OUT, IN, ... starting with
IN; and each accepted call chooses IN when there is no punch yet today,
and the toggle of the last punch's direction otherwise (OUT after IN,
IN after OUT). -/
theorem c3_directions_alternate (db : DB) (ts : List Nat) (dev nm : String)
    (uid : Option String) (conf : Int) (d : Nat) :
    (userDayPunches db (resolveUid uid nm) d = [] →
      (∀ t ∈ ts, t / 86400 = d) →
      alternatesIN ((userDayPunches (runCalls db ts dev nm uid conf)
        (resolveUid uid nm) d).map (fun r => r.punch_type)) = true) ∧
    (∀ (db2 : DB) (t : Nat),
      get_last_punch_today db2 (resolveUid uid nm) (t / 86400) = none →
      (add_record db2 t dev nm uid conf).2.records
          = db2.records ++ [newRow db2 t dev nm uid conf "IN"] ∧
        (newRow db2 t dev nm uid conf "IN").punch_type = "IN") ∧
    (∀ (db2 : DB) (t : Nat) (c : PunchRecord),
      get_last_punch_today db2 (resolveUid uid nm) (t / 86400) = some c →
      ¬t - c.punch_time < 60 →
      (add_record db2 t dev nm uid conf).2.records
          = db2.records ++ [newRow db2 t dev nm uid conf
              (if c.punch_type = "IN" then "OUT" else "IN")] ∧
        (c.punch_type = "IN" → (newRow db2 t dev nm uid conf
            (if c.punch_type = "IN" then "OUT" else "IN")).punch_type = "OUT") ∧
        (c.punch_type = "OUT" → (newRow db2 t dev nm uid conf
            (if c.punch_type = "IN" then "OUT" else "IN")).punch_type = "IN")) := by
  refine ⟨?_, ?_, ?_⟩
  · intro h0 hts
    have hinv : dayInv db (resolveUid uid nm) d := by
      constructor
      · rw [h0]
        exact List.Pairwise.nil
      · rw [h0]
        rfl
    exact (dayInv_runCalls db ts dev nm uid conf d hts hinv).2
  · intro db2 t hgl
    rw [add_record_first db2 t dev nm uid conf hgl]
    exact ⟨rfl, rfl⟩
  · intro db2 t c hgl hcool
    rw [add_record_toggle db2 t dev nm uid conf c hgl hcool]
    refine ⟨rfl, ?_, ?_⟩
    · intro hc
      simp [newRow, hc]
    · intro hc
      simp [newRow, hc]

/-- Witness for C3: three same-day calls at 09:05, 09:10 (suppressed
only if within 60 s - here 300 s apart, so accepted) and 09:20 produce
IN, OUT, IN. -/
theorem c3_witness :
    alternatesIN ((userDayPunches
      (runCalls (⟨[defaultShift], [], 1⟩ : DB) [32700, 33000, 33600] "DEV" "alice" none 0)
      (resolveUid none "alice") 0).map (fun r => r.punch_type)) = true :=
  (c3_directions_alternate (⟨[defaultShift], [], 1⟩ : DB) [32700, 33000, 33600]
    "DEV" "alice" none 0 0).1 (by decide) (by decide)

/-- Witness for C10 on a concrete store. -/
theorem c10_witness :
    add_record sampleDB 5000 "DEV" "Bob" none 0
      = add_record sampleDB 5000 "DEV" "Bob" (some "Bob") 0 :=
  (c10_null_user_id_uses_name sampleDB 5000 "DEV" "Bob" 0).1

/-- C6 counterexample: `add_record` takes no lock spanning its
last-punch read and its insert (they run on two separate store
connections), so two overlapping calls for the same user can both read
the empty snapshot before either inserts.  The schedule
read1-read2-write1-write2 of two identical calls at the same instant
stores TWO "IN" records zero seconds apart - duplicate records inside
the cooldown window, with the alternation broken - while every serial
order of the two calls (both coincide, the calls being identical)
stores exactly one record.  The interleaved outcome therefore matches
no serial execution: the calls are not serializable. -/
theorem c6_counterexample :
    (runSchedule ⟨⟨[], [], 1⟩, [(⟨1000, "DEV", "alice", none, 0⟩, .ready),
        (⟨1000, "DEV", "alice", none, 0⟩, .ready)]⟩
      [0, 1, 0, 1]).db.records.map (fun r => (r.user_id, r.punch_type, r.punch_time))
      = [("alice", "IN", 1000), ("alice", "IN", 1000)] ∧
    alternatesIN ((runSchedule ⟨⟨[], [], 1⟩,
        [(⟨1000, "DEV", "alice", none, 0⟩, .ready),
         (⟨1000, "DEV", "alice", none, 0⟩, .ready)]⟩
      [0, 1, 0, 1]).db.records.map (fun r => r.punch_type)) = false ∧
    ((add_record ((add_record (⟨[], [], 1⟩ : DB) 1000 "DEV" "alice" none 0).2)
        1000 "DEV" "alice" none 0).2).records.length = 1 ∧
    (runSchedule ⟨⟨[], [], 1⟩, [(⟨1000, "DEV", "alice", none, 0⟩, .ready),
        (⟨1000, "DEV", "alice", none, 0⟩, .ready)]⟩
      [0, 1, 0, 1]).db.records.length = 2 :=
  ⟨by decide, by decide, by decide, by decide⟩

/-- C6 (amended): each individual store operation of `add_record` is
atomic, and NON-OVERLAPPING calls execute as the serial composition of
the two `add_record` calls (in either order), preserving the cooldown
and alternation guarantees for sequential use; but nothing serialises
the read-then-insert window of overlapping same-user calls, so
per-user serializability under concurrent invocation is not provided
(see the counterexample). -/
theorem c6_sequential_calls_serialize (db : DB) (c1 c2 : PendingCall) :
    runSchedule ⟨db, [(c1, .ready), (c2, .ready)]⟩ [0, 0, 1, 1]
      = ⟨(add_record (add_record db c1.now c1.device_id c1.name c1.user_id
            c1.confidence).2 c2.now c2.device_id c2.name c2.user_id c2.confidence).2,
         [(c1, .finished (add_record db c1.now c1.device_id c1.name c1.user_id
            c1.confidence).1),
          (c2, .finished (add_record (add_record db c1.now c1.device_id c1.name
            c1.user_id c1.confidence).2 c2.now c2.device_id c2.name c2.user_id
            c2.confidence).1)]⟩ ∧
    runSchedule ⟨db, [(c1, .ready), (c2, .ready)]⟩ [1, 1, 0, 0]
      = ⟨(add_record (add_record db c2.now c2.device_id c2.name c2.user_id
            c2.confidence).2 c1.now c1.device_id c1.name c1.user_id c1.confidence).2,
         [(c1, .finished (add_record (add_record db c2.now c2.device_id c2.name
            c2.user_id c2.confidence).2 c1.now c1.device_id c1.name c1.user_id
            c1.confidence).1),
          (c2, .finished (add_record db c2.now c2.device_id c2.name c2.user_id
            c2.confidence).1)]⟩ :=
  ⟨rfl, rfl⟩

/-- A primary-key-unique table has exactly one row with a present key. -/
lemma filter_key_unique (users : List UserRow) (uid : String) (u0 : UserRow)
    (hnd : (users.map (fun u => u.user_id)).Nodup) (hmem : u0 ∈ users)
    (hk : u0.user_id = uid) :
    users.filter (fun u => u.user_id == uid) = [u0] := by
  induction users with
  | nil => simp at hmem
  | cons v vs ih =>
    rw [List.map_cons, List.nodup_cons] at hnd
    rcases List.mem_cons.mp hmem with rfl | hmem2
    · have htail : vs.filter (fun u => u.user_id == uid) = [] := by
        rw [List.filter_eq_nil_iff]
        intro a ha hpa
        apply hnd.1
        rw [beq_iff_eq] at hpa
        rw [hk, ← hpa]
        exact List.mem_map_of_mem _ ha
      rw [List.filter_cons_of_pos (by simp [hk]), htail]
    · have hvk : ¬v.user_id = uid := by
        intro hv
        apply hnd.1
        rw [hv, ← hk]
        exact List.mem_map_of_mem _ hmem2
      rw [List.filter_cons_of_neg (by simp [hvk])]
      exact ih hnd.2 hmem2

/-- The conflict-update map leaves non-matching rows untouched. -/
lemma filter_map_update (users : List UserRow) (uid nm : String) (now : Nat) :
    (users.map (fun u => if u.user_id == uid
        then { u with name := nm, synced_at := now } else u)).filter
      (fun u => !(u.user_id == uid))
      = users.filter (fun u => !(u.user_id == uid)) := by
  induction users with
  | nil => rfl
  | cons v vs ih =>
    by_cases hv : v.user_id = uid
    · rw [List.map_cons, if_pos (by simpa using hv)]
      rw [List.filter_cons_of_neg (by simp [hv]),
        List.filter_cons_of_neg (by simp [hv])]
      exact ih
    · rw [List.map_cons, if_neg (by simpa using hv)]
      rw [List.filter_cons_of_pos (by simp [hv]),
        List.filter_cons_of_pos (by simp [hv])]
      rw [ih]

/-- C8: `upsert_users` processes its batch entry by entry: an entry
whose resolved id is fresh is appended as a new row; an entry whose
resolved id already exists updates that row's name and synced-at in
place, leaving the identifier column and every other row unchanged; an
entry with no truthy resolvable id or name is skipped without
affecting the rest of the batch. -/
theorem c8_upsert_semantics (users : List UserRow) (uid nm : String)
    (now : Nat) (entries : List RosterEntry) (e : RosterEntry)
    (hnd : (users.map (fun u => u.user_id)).Nodup) :
    upsert_users users entries now
      = (if entries = [] then (users, none)
         else (entries.foldl (upsertStep now) users, none)) ∧
    (¬(truthy (entryUid e) = true ∧ truthy (entryName e) = true) →
      upsertStep now users e = users) ∧
    ((∀ u ∈ users, u.user_id ≠ uid) →
      upsert_one users uid nm now
        = users ++ [{ user_id := uid, name := nm, synced_at := now }]) ∧
    (∀ u0 ∈ users, u0.user_id = uid →
      upsert_one users uid nm now
          = users.map (fun u => if u.user_id == uid
              then { u with name := nm, synced_at := now } else u) ∧
        (upsert_one users uid nm now).map (fun u => u.user_id)
          = users.map (fun u => u.user_id) ∧
        (upsert_one users uid nm now).filter (fun u => !(u.user_id == uid))
          = users.filter (fun u => !(u.user_id == uid)) ∧
        (upsert_one users uid nm now).filter (fun u => u.user_id == uid)
          = [{ u0 with name := nm, synced_at := now }]) := by
  refine ⟨rfl, ?_, ?_, ?_⟩
  · intro hbad
    cases hu : entryUid e with
    | none => simp only [upsertStep, hu]
    | some u =>
      cases hn : entryName e with
      | none => simp only [upsertStep, hu, hn]
      | some n =>
        simp only [upsertStep, hu, hn]
        rw [if_neg]
        intro hcond
        rw [Bool.and_eq_true] at hcond
        exact hbad ⟨by rw [hu]; exact hcond.1, by rw [hn]; exact hcond.2⟩
  · intro hfresh
    have hany : users.any (fun u => u.user_id == uid) = false := by
      rw [List.any_eq_false]
      intro u hu
      simpa using hfresh u hu
    unfold upsert_one
    rw [hany]
    rfl
  · intro u0 hmem hk
    have hany : users.any (fun u => u.user_id == uid) = true := by
      rw [List.any_eq_true]
      exact ⟨u0, hmem, by simpa using hk⟩
    have hmap : upsert_one users uid nm now
        = users.map (fun u => if u.user_id == uid
            then { u with name := nm, synced_at := now } else u) := by
      unfold upsert_one
      rw [hany]
      rfl
    have hkeys : (upsert_one users uid nm now).map (fun u => u.user_id)
        = users.map (fun u => u.user_id) := by
      rw [hmap]
      exact map_proj_of_fix _ _ _ fun a => by
        by_cases ha : a.user_id = uid
        · rw [if_pos (by simpa using ha)]
        · rw [if_neg (by simpa using ha)]
    refine ⟨hmap, hkeys, by rw [hmap]; exact filter_map_update users uid nm now, ?_⟩
    have hnd2 : ((upsert_one users uid nm now).map (fun u => u.user_id)).Nodup := by
      rw [hkeys]
      exact hnd
    have hmem2 : ({ u0 with name := nm, synced_at := now } : UserRow)
        ∈ upsert_one users uid nm now := by
      rw [hmap]
      refine List.mem_map.mpr ⟨u0, hmem, ?_⟩
      rw [if_pos (by simpa using hk)]
    exact filter_key_unique _ uid _ hnd2 hmem2 hk

/-- Witness for C8 on a concrete table: re-upserting an existing id
updates the row in place. -/
theorem c8_witness :
    upsert_one [{ user_id := "u1", name := "Alice", synced_at := 0 }] "u1" "Alicia" 9
      = [{ user_id := "u1", name := "Alicia", synced_at := 9 }] :=
  ((c8_upsert_semantics [{ user_id := "u1", name := "Alice", synced_at := 0 }]
      "u1" "Alicia" 9 [] ⟨none, none, none, none⟩ (by decide)).2.2.2
    { user_id := "u1", name := "Alice", synced_at := 0 }
    (List.mem_singleton.mpr rfl) rfl).1

/-- C9 counterexample: `upsert_users` upserts one valid entry but its
Python return value is `None`, not the count 1. -/
theorem c9_counterexample :
    (upsert_users [] [⟨some "u1", none, some "Alice", none⟩] 7).2 = none ∧
    (upsert_users [] [⟨some "u1", none, some "Alice", none⟩] 7).1
      = [{ user_id := "u1", name := "Alice", synced_at := 7 }] ∧
    (upsert_users [] [⟨some "u1", none, some "Alice", none⟩] 7).2 ≠ some 1 :=
  ⟨by decide, by decide, by decide⟩

/-- C9 (amended): `upsert_users`, given a list of {user_id, name}
entries (alias keys id/employee_name accepted), upserts the valid
entries but returns no value (Python `None`); the upsert count is never
returned (the log line reports the raw input length instead). -/
theorem c9_upsert_returns_none (users : List UserRow)
    (entries : List RosterEntry) (now : Nat) (s n : String) :
    (upsert_users users entries now).2 = none ∧
    (upsert_users users entries now).1
      = (if entries = [] then users
         else entries.foldl (upsertStep now) users) ∧
    (s ≠ "" → n ≠ "" →
      upsertStep now users ⟨none, some s, none, some n⟩
        = upsert_one users s n now) := by
  refine ⟨?_, ?_, ?_⟩
  · unfold upsert_users
    split <;> rfl
  · unfold upsert_users
    split <;> simp_all
  · intro hs hn
    unfold upsertStep entryUid entryName orKey
    simp [hs, hn]

/-- Witness for C9 (amended). -/
theorem c9_witness :
    (upsert_users [] ([] : List RosterEntry) 0).2 = none :=
  (c9_upsert_returns_none [] [] 0 "x" "y").1

/-! ## Migration idempotence machinery (C7) -/

/-- The pre-migration column snapshot (`PRAGMA table_info` after table
creation). -/
def existingCols (f : FileState) : List String :=
  if f.attendanceExists then f.cols else creationCols

lemma foldl_mig_cols (L ex : List String) (cr : List String × List MigRow) :
    (L.foldl (fun cr c => if c ∈ ex then cr else addColumn cr c) cr).1
      = cr.1 ++ L.filter (fun c => decide (¬c ∈ ex)) := by
  induction L generalizing cr with
  | nil => simp
  | cons c L ih =>
    rw [List.foldl_cons]
    by_cases hc : c ∈ ex
    · rw [if_pos hc, ih, List.filter_cons_of_neg (by simpa using hc)]
    · rw [if_neg hc, ih, List.filter_cons_of_pos (by simpa using hc)]
      cases cr with
      | mk a b => simp [addColumn]

lemma foldl_mig_skip (L ex : List String) (cr : List String × List MigRow)
    (h : ∀ c ∈ L, c ∈ ex) :
    L.foldl (fun cr c => if c ∈ ex then cr else addColumn cr c) cr = cr := by
  induction L generalizing cr with
  | nil => rfl
  | cons c L ih =>
    rw [List.foldl_cons, if_pos (h c (List.mem_cons_self _ _))]
    exact ih _ fun d hd => h d (List.mem_cons_of_mem _ hd)

lemma backfillSyncedRow_idem (r : MigRow) :
    backfillSyncedRow (backfillSyncedRow r) = backfillSyncedRow r := by
  by_cases h : r.synced = some 1 <;> simp [backfillSyncedRow, h]

lemma init_db_cols (f : FileState) :
    (init_db f).cols
      = existingCols f
        ++ newColumns.filter (fun c => decide (¬c ∈ existingCols f)) := by
  unfold init_db existingCols
  cases hax : f.attendanceExists with
  | false =>
    simp only [hax, Bool.false_eq_true, if_false]
    exact foldl_mig_cols newColumns creationCols (creationCols, [])
  | true =>
    simp only [hax, if_true]
    exact foldl_mig_cols newColumns f.cols (f.cols, f.rows)

lemma init_db_shifts (f : FileState) :
    (init_db f).shifts = if f.shifts = [] then [defaultShift] else f.shifts := rfl

lemma init_db_attendance (f : FileState) :
    (init_db f).attendanceExists = true := rfl

lemma init_db_users (f : FileState) : (init_db f).usersExists = true := rfl

lemma init_db_cols_mem (f : FileState) (c : String) (hc : c ∈ newColumns) :
    c ∈ (init_db f).cols := by
  rw [init_db_cols]
  by_cases h : c ∈ existingCols f
  · exact List.mem_append_left _ h
  · exact List.mem_append_right _ (List.mem_filter.mpr ⟨hc, by simpa using h⟩)

lemma init_db_cols_mem_iff (f : FileState) (c : String)
    (hc : ¬c ∈ newColumns) :
    c ∈ (init_db f).cols ↔ c ∈ existingCols f := by
  rw [init_db_cols, List.mem_append]
  constructor
  · rintro (h | h)
    · exact h
    · exact absurd (List.mem_filter.mp h).1 hc
  · exact Or.inl

lemma init_db_rows_synced_fixed (f : FileState)
    (h : "synced" ∈ existingCols f) :
    (init_db f).rows.map backfillSyncedRow = (init_db f).rows := by
  obtain ⟨aex, cols, rows, shifts, uex⟩ := f
  cases aex with
  | false =>
    exact absurd (by simpa [existingCols] using h)
      (by decide : ¬"synced" ∈ creationCols)
  | true =>
    have h2 : "synced" ∈ cols := by simpa [existingCols] using h
    unfold init_db
    simp only [if_true]
    rw [if_pos h2]
    exact map_proj_of_fix _ _ _ backfillSyncedRow_idem

/-- Running `_init_db` on a file that is already fully migrated (table
present, nonempty shifts, every migration column present, synced
backfill saturated) changes nothing. -/
lemma init_db_of_ready (g : FileState) (hax : g.attendanceExists = true)
    (hux : g.usersExists = true) (hsh : g.shifts ≠ [])
    (hcols : ∀ c ∈ newColumns, c ∈ g.cols)
    (hsy : "synced" ∈ g.cols → g.rows.map backfillSyncedRow = g.rows) :
    init_db g = g := by
  obtain ⟨aex, cols, rows, shifts, uex⟩ := g
  simp only at hax hux hcols hsy hsh
  subst hax
  subst hux
  unfold init_db
  simp only [if_true, if_neg hsh]
  rw [foldl_mig_skip newColumns cols (cols, rows) hcols]
  have h2 : ¬("timestamp" ∈ cols ∧ ¬"punch_time" ∈ cols) := by
    rintro ⟨-, hpt⟩
    exact hpt (hcols "punch_time" (by decide))
  rw [if_neg h2]
  by_cases hs : "synced" ∈ cols
  · rw [if_pos hs, hsy hs]
  · rw [if_neg hs]

/-- C7: `_init_db` is idempotent - a second run adds no column, seeds
no shift, and leaves every row as is; column lists stay duplicate-free;
the default shift is seeded exactly when the shifts table is empty; and
the two legacy backfills only fill NULL `punch_time` from a non-NULL
legacy timestamp and only raise the sync flags of rows with
`synced = 1`, losing no data on any run. -/
theorem c7_init_db_idempotent (f : FileState) (hnd : (existingCols f).Nodup) :
    init_db (init_db f) = init_db f ∧
    (init_db f).cols.Nodup ∧
    (f.shifts = [] → (init_db f).shifts = [defaultShift]) ∧
    (f.shifts ≠ [] → (init_db f).shifts = f.shifts) ∧
    (∀ r : MigRow,
      (∀ v, r.punch_time = some v → (backfillTimeRow r).punch_time = some v) ∧
      (backfillTimeRow r).timestamp = r.timestamp ∧
      (backfillTimeRow r).synced = r.synced ∧
      (backfillTimeRow r).other = r.other ∧
      (r.punch_time = none → r.timestamp ≠ none →
        (backfillTimeRow r).punch_time = some (unixToLocal r.timestamp.iget)) ∧
      (r.synced = some 1 → backfillSyncedRow r
        = { r with lan_synced := some 1, mqtt_synced := some 1 }) ∧
      (r.synced ≠ some 1 → backfillSyncedRow r = r)) := by
  refine ⟨?_, ?_, ?_, ?_, ?_⟩
  · apply init_db_of_ready
    · exact init_db_attendance f
    · exact init_db_users f
    · rw [init_db_shifts]
      split
      · simp [defaultShift]
      · assumption
    · exact fun c hc => init_db_cols_mem f c hc
    · intro hs
      rw [init_db_cols_mem_iff f "synced" (by decide)] at hs
      exact init_db_rows_synced_fixed f hs
  · rw [init_db_cols]
    rw [List.nodup_append]
    refine ⟨hnd, List.Nodup.filter _ (by decide), ?_⟩
    intro c hc hcf
    exact absurd hc (by simpa using (List.mem_filter.mp hcf).2)
  · intro h
    rw [init_db_shifts, if_pos h]
  · intro h
    rw [init_db_shifts, if_neg h]
  · intro r
    refine ⟨?_, ?_, ?_, ?_, ?_, ?_, ?_⟩
    · intro v hv
      unfold backfillTimeRow
      rw [hv]
      cases ht : r.timestamp <;> simp [hv]
    · unfold backfillTimeRow
      cases hp : r.punch_time <;> cases ht : r.timestamp <;> simp [hp, ht]
    · unfold backfillTimeRow
      cases hp : r.punch_time <;> cases ht : r.timestamp <;> simp [hp, ht]
    · unfold backfillTimeRow
      cases hp : r.punch_time <;> cases ht : r.timestamp <;> simp [hp, ht]
    · intro hp ht
      unfold backfillTimeRow
      rw [hp]
      cases hts : r.timestamp with
      | none => exact absurd hts ht
      | some v => simp [hts]
    · intro hs
      rw [backfillSyncedRow, if_pos hs]
    · intro hs
      rw [backfillSyncedRow, if_neg hs]

/-- Witness for C7 on a concrete legacy file (old `timestamp` and
`synced` columns, no `punch_time`). -/
theorem c7_witness :
    init_db (init_db (⟨true, ["id", "name", "device_id", "timestamp", "synced", "confidence"], [⟨none, some 500, some 1, none, none, []⟩], [], false⟩ : FileState))
      = init_db (⟨true, ["id", "name", "device_id", "timestamp", "synced", "confidence"], [⟨none, some 500, some 1, none, none, []⟩], [], false⟩ : FileState) :=
  (c7_init_db_idempotent _ (by decide)).1

end BioV2

